import Mathlib

/-!
A shallow embedding of the `auto-provision` dependency-injection container
(`src/context.js`, plus the `Provider`/`DependencyError` collaborators it
imports). JavaScript promises are modelled as settled asynchronous results
(`Except DependencyError JSVal`): a resolved promise is `.ok`, a rejected
promise is `.error`. JavaScript's single-threaded cooperative scheduling
(spec §5) lets the stateful parts be modelled by explicit state passing of
the `Context`.
-/

set_option autoImplicit false

namespace AutoProvision

/-- A JavaScript value, as far as the container observes it: the container
only ever branches on truthiness, so primitive values suffice. -/
inductive JSVal where
  | null
  | undef
  | boolean (b : Bool)
  | num (n : Int)
  | str (s : String)
  deriving DecidableEq, Repr

/-- JavaScript truthiness (`!!v`): `false`, `0`, `''`, `null`, `undefined`
are falsy; everything else is truthy. -/
def JSVal.truthy : JSVal → Bool
  | .null => false
  | .undef => false
  | .boolean b => b
  | .num n => n != 0
  | .str s => s != ""

/-- Modelled from the spec: `src/error.js` (`DependencyError`) is not under
`src/`; per §7 it is an error value carrying a message (and, through the
message built in `context.js`, the offending key). -/
structure DependencyError where
  message : String
  deriving DecidableEq, Repr

instance {ε α : Type} [DecidableEq ε] [DecidableEq α] : DecidableEq (Except ε α) := fun
  | .error e, .error e' =>
      if h : e = e' then .isTrue (by rw [h]) else .isFalse (by simp [h])
  | .error _, .ok _ => .isFalse (by simp)
  | .ok _, .error _ => .isFalse (by simp)
  | .ok a, .ok b =>
      if h : a = b then .isTrue (by rw [h]) else .isFalse (by simp [h])

/-- A value handed to the container (a literal or a factory result): it may
be an immediate value or an eventual one (a promise), which resolution must
unwrap (`Promise.resolve(...)` flattening). A settled promise is its
outcome. -/
inductive JSValue where
  | imm (v : JSVal)
  | promise (p : Except DependencyError JSVal)
  deriving DecidableEq, Repr

/-- `Promise.resolve(x)`: an immediate value resolves to itself; a promise
is flattened to its own outcome. -/
def unwrapValue : JSValue → Except DependencyError JSVal
  | .imm v => .ok v
  | .promise p => p

/-- The behaviour of a zero-argument factory function: it either returns a
(possibly eventual) value or raises. -/
inductive FactoryOutcome where
  | returns (v : JSValue)
  | throws (msg : String)
  deriving DecidableEq, Repr

/-- Modelled from the spec: `src/provider.js` is not under `src/`; per §3/§4.1
a Provider's strategy is exactly one of `Literal` / `Factory` / `Alias`, or
unconfigured when none of `as`/`with`/`aliasTo` was ever called. -/
inductive Strategy where
  | unconfigured
  | literal (v : JSValue)
  | factory (f : FactoryOutcome)
  | aliasKey (k : String)
  deriving DecidableEq, Repr

/-- Modelled from the spec: `src/provider.js` is not under `src/`; per §3 a
Provider holds its strategy and the memoized production. `invocationTally`
instruments the number of times the factory function has been invoked (the
observable `count++` side effect of the memoization test). -/
structure Provider where
  strategy : Strategy
  cached : Option (Except DependencyError JSVal)
  invocationTally : Nat
  deriving DecidableEq, Repr

/-- `new Provider(context)`: a fresh, unconfigured provider. -/
def Provider.new : Provider :=
  { strategy := .unconfigured, cached := none, invocationTally := 0 }

/-- `provider.as(value)`: sets the strategy to `Literal(value)` (last call
wins, no stacking). Modelled from the spec (§4.1). -/
def Provider.as (p : Provider) (v : JSValue) : Provider :=
  { p with strategy := .literal v }

/-- `provider.with(factory)`: sets the strategy to `Factory(factory)`.
Modelled from the spec (§4.1). -/
def Provider.withFn (p : Provider) (f : FactoryOutcome) : Provider :=
  { p with strategy := .factory f }

/-- `provider.aliasTo(key)`: sets the strategy to `Alias(key)`. Modelled
from the spec (§4.1). -/
def Provider.aliasTo (p : Provider) (k : String) : Provider :=
  { p with strategy := .aliasKey k }

/-- The `_providers` registry: a JavaScript object keyed by strings, i.e. an
insertion-ordered association list with at most one entry per key. -/
abbrev Registry := List (String × Provider)

/-- Object property assignment `obj[key] = p`: an existing key keeps its
position in insertion order; a new key is appended. -/
def setProvider : Registry → String → Provider → Registry
  | [], k, p => [(k, p)]
  | (k', p') :: rest, k, p =>
      if k' = k then (k, p) :: rest else (k', p') :: setProvider rest k p

/-- Object property read `obj[key]`: `none` models `undefined`. -/
def getProvider : Registry → String → Option Provider
  | [], _ => none
  | (k', p') :: rest, k => if k' = k then some p' else getProvider rest k

/-- `Object.keys(this._providers)`: the keys in insertion order. -/
def registryKeys (r : Registry) : List String :=
  r.map Prod.fst

/-- The `Context` class: its `name` and its `_providers` registry. A context
constructed without a name is modelled with `name = ""` (both `undefined`
and `''` are falsy, so neither registers in the repository). -/
structure Context where
  name : String
  providers : Registry
  deriving DecidableEq, Repr

/-- `context.provide(key)`: creates a new Provider, stores it at `key`
(overwriting any prior registration), and returns it for configuration. -/
def Context.provide (ctx : Context) (key : String) : Provider × Context :=
  (Provider.new, { ctx with providers := setProvider ctx.providers key Provider.new })

/-- The fluent `context.provide(key).as(value)`: the returned provider is
the one stored in the registry, so configuring it updates the registry
entry in place. -/
def Context.provideAs (ctx : Context) (key : String) (v : JSValue) : Context :=
  { ctx with providers := setProvider ctx.providers key (Provider.new.as v) }

/-- The fluent `context.provide(key).with(factory)`. -/
def Context.provideWith (ctx : Context) (key : String) (f : FactoryOutcome) : Context :=
  { ctx with providers := setProvider ctx.providers key (Provider.new.withFn f) }

/-- The fluent `context.provide(key).aliasTo(target)`. -/
def Context.provideAlias (ctx : Context) (key : String) (target : String) : Context :=
  { ctx with providers := setProvider ctx.providers key (Provider.new.aliasTo target) }

/-- Invoking a factory function: a synchronous raise becomes a rejected
result; a returned (possibly eventual) value is unwrapped. -/
def runFactory : FactoryOutcome → Except DependencyError JSVal
  | .returns v => unwrapValue v
  | .throws m => .error ⟨m⟩

/-- Modelled from the spec: `provider.get()` of the missing `src/provider.js`
(§4.1). `Literal` unwraps and returns its value; `Factory` invokes the
function on first call, caches the unwrapped result (a failure is cached
too, per §7's at-most-once recommendation), and afterwards returns the
cache without invoking again; `Alias` delegates to the owning context's
resolution (through `resolveNext`) with no caching layer of its own;
an unconfigured provider yields a configuration error (§3 invariant),
surfaced asynchronously like every other failure (§7). The updated
registry entry for `key` is written back into the returned context. -/
def providerGet (resolveNext : Context → String → Except DependencyError JSVal × Context)
    (ctx : Context) (key : String) (p : Provider) :
    Except DependencyError JSVal × Context :=
  match p.strategy with
  | .unconfigured => (.error ⟨"Provider is not configured"⟩, ctx)
  | .literal v => (unwrapValue v, ctx)
  | .factory f =>
      match p.cached with
      | some r => (r, ctx)
      | none =>
          let r := runFactory f
          let p2 : Provider := { p with cached := some r, invocationTally := p.invocationTally + 1 }
          (r, { ctx with providers := setProvider ctx.providers key p2 })
  | .aliasKey k2 => resolveNext ctx k2

/-- `context.resolve(key)` (src/context.js lines 78–87): if no provider is
registered, a rejected promise carrying the key; otherwise
`Promise.resolve(provider.get())`. `fuel` bounds the alias-delegation
depth (a cyclic alias chain never produces a value; exhausted fuel is the
modelled failure of such a resolution). -/
def resolveFuel : Nat → Context → String → Except DependencyError JSVal × Context
  | 0, ctx, _ => (.error ⟨"resolution did not terminate"⟩, ctx)
  | fuel + 1, ctx, key =>
      match getProvider ctx.providers key with
      | none => (.error ⟨"Cannot find provider for: " ++ key⟩, ctx)
      | some p => providerGet (resolveFuel fuel) ctx key p

/-- The condition argument of `resolveAll`/`using`, one constructor per
branch of the dispatch in src/context.js lines 101–137, in the order the
code tests them: an array of sub-conditions, a RegExp (observed only
through its `test` method on key text), a callable predicate, `undefined`
(no condition), `true`, `null`, `false`, and anything else treated as a
literal single key. -/
inductive Cond where
  | arr (cs : List Cond)
  | regex (test : String → Bool)
  | pred (test : String → Bool)
  | undef
  | tru
  | nul
  | fls
  | key (k : String)

/-- Bluebird's `Promise.map(keys, key => this.resolve(key))`: resolve each
key in order, threading the registry state; any rejection rejects the
whole, and no partial list is produced. -/
def resolveMany (fuel : Nat) : List String → Context → Except DependencyError (List JSVal) × Context
  | [], ctx => (.ok [], ctx)
  | k :: ks, ctx =>
      match resolveFuel fuel ctx k with
      | (.ok v, ctx1) =>
          match resolveMany fuel ks ctx1 with
          | (.ok vs, ctx2) => (.ok (v :: vs), ctx2)
          | (.error e, ctx2) => (.error e, ctx2)
      | (.error e, ctx1) => (.error e, ctx1)

/-- The shared tail of the regex / predicate / no-condition branches of
`resolveAll`: `.map(key => this.resolve(key)).filter(values => !!values)` —
resolve every listed key, then drop falsy resolved values. -/
def resolveKeysThenFilter (fuel : Nat) (keys : List String) (ctx : Context) :
    Except DependencyError (List JSVal) × Context :=
  match resolveMany fuel keys ctx with
  | (.ok vs, ctx1) => (.ok (vs.filter JSVal.truthy), ctx1)
  | (.error e, ctx1) => (.error e, ctx1)

/-- One step of the array branch's
`.map(c => this.resolveAll(c)).reduce((acc, item) => [...acc, ...item], [])`:
resolve each sub-condition via the given recursive `resolveAll` and
concatenate the sub-results in order, rejecting on the first failure. -/
def resolveAllSeq (recurse : Cond → Context → Except DependencyError (List JSVal) × Context) :
    List Cond → Context → Except DependencyError (List JSVal) × Context
  | [], ctx => (.ok [], ctx)
  | c :: cs, ctx =>
      match recurse c ctx with
      | (.ok vs, ctx1) =>
          match resolveAllSeq recurse cs ctx1 with
          | (.ok vs2, ctx2) => (.ok (vs ++ vs2), ctx2)
          | (.error e, ctx2) => (.error e, ctx2)
      | (.error e, ctx1) => (.error e, ctx1)

/-- `context.resolveAll(cond)` (src/context.js lines 101–137). Dispatch in
source order: an array recurses into each sub-condition and concatenates;
a RegExp filters the registered keys by pattern match; a callable filters
them by the predicate; `undefined`/`true` take all registered keys;
`null`/`false` yield the empty list with no resolution; anything else is a
literal key whose single resolution is wrapped in a one-element list.
Every value-producing branch ends in `.filter(values => !!values)`,
dropping falsy resolved values. `fuel` additionally bounds the array
nesting depth (the JavaScript recursion). -/
def resolveAllFuel : Nat → Cond → Context → Except DependencyError (List JSVal) × Context
  | 0, _, ctx => (.error ⟨"resolution did not terminate"⟩, ctx)
  | fuel + 1, cond, ctx =>
      match cond with
      | .arr cs =>
          match resolveAllSeq (resolveAllFuel fuel) cs ctx with
          | (.ok vs, ctx1) => (.ok (vs.filter JSVal.truthy), ctx1)
          | (.error e, ctx1) => (.error e, ctx1)
      | .regex t => resolveKeysThenFilter (fuel + 1) ((registryKeys ctx.providers).filter t) ctx
      | .pred t => resolveKeysThenFilter (fuel + 1) ((registryKeys ctx.providers).filter t) ctx
      | .undef => resolveKeysThenFilter (fuel + 1) (registryKeys ctx.providers) ctx
      | .tru => resolveKeysThenFilter (fuel + 1) (registryKeys ctx.providers) ctx
      | .nul => (.ok [], ctx)
      | .fls => (.ok [], ctx)
      | .key k =>
          match resolveFuel (fuel + 1) ctx k with
          | (.ok v, ctx1) => (.ok ([v].filter JSVal.truthy), ctx1)
          | (.error e, ctx1) => (.error e, ctx1)

/-- One call of the function returned by `context.using(cond, consumer)`
(src/context.js lines 153–156): `(...ownArgs) =>
this.resolveAll(cond).then(values => consumer(...values, ...ownArgs))`.
The consumer is modelled as a function of its full spread argument list;
each call runs `resolveAll` afresh on the current state, and a rejection
of `resolveAll` rejects the whole call. -/
def usingApply (fuel : Nat) (cond : Cond) (consumer : List JSVal → JSVal)
    (ownArgs : List JSVal) (ctx : Context) : Except DependencyError JSVal × Context :=
  match resolveAllFuel fuel cond ctx with
  | (.ok vs, ctx1) => (.ok (consumer (vs ++ ownArgs)), ctx1)
  | (.error e, ctx1) => (.error e, ctx1)

/-- The process-wide named-instance directory `Context._repo`: a JavaScript
object from name to Context, insertion-ordered. -/
abbrev Repo := List (String × Context)

/-- Object property assignment `Context._repo[name] = ctx`. -/
def repoSet : Repo → String → Context → Repo
  | [], n, c => [(n, c)]
  | (n', c') :: rest, n, c =>
      if n' = n then (n, c) :: rest else (n', c') :: repoSet rest n c

/-- `Context.get(name)` (src/context.js lines 20–22): the repository read
`Context._repo[name]`; `none` models `undefined`. -/
def repoGet : Repo → String → Option Context
  | [], _ => none
  | (n', c') :: rest, n => if n' = n then some c' else repoGet rest n

/-- `new Context(name)` (src/context.js lines 39–45): sets `this.name`,
starts with an empty registry, and — only when `name` is truthy — stores
the instance in `Context._repo`. An absent name is modelled as `""`
(`undefined` and `''` are equally falsy). Returns the new instance and the
updated repository. -/
def constructContext (repo : Repo) (name : String) : Context × Repo :=
  let ctx : Context := { name := name, providers := [] }
  (ctx, if name ≠ "" then repoSet repo name ctx else repo)

/-- An unnamed context with an empty registry, as the tests construct with
`new Context()`. -/
def emptyCtx : Context := { name := "", providers := [] }

/-- Test fixture: `provide('a').as(0)` on an otherwise empty context. -/
def exCtxZero : Context := emptyCtx.provideAs "a" (.imm (.num 0))

/-- Test fixture: `provide('test-key').as('test-value')`. -/
def exCtxVal : Context := emptyCtx.provideAs "test-key" (.imm (.str "test-value"))

/-- Test fixture: `provide('p').as(Promise.resolve('v'))` — an eventual
literal that resolution must unwrap. -/
def exCtxPromise : Context := emptyCtx.provideAs "p" (.promise (.ok (.str "v")))

/-- The registry entry left behind by the first resolution of a
fresh `Factory` provider: the outcome is cached (success or failure
alike) and the invocation tally is 1. -/
def memoProvider (f : FactoryOutcome) : Provider :=
  { strategy := .factory f, cached := some (runFactory f), invocationTally := 1 }

/-- The context state after the first resolution of a fresh `Factory`
provider registered at `k`. -/
def memoCtx (ctx : Context) (k : String) (f : FactoryOutcome) : Context :=
  { ctx with providers := setProvider ctx.providers k (memoProvider f) }

/- ------------------------------------------------------------------ -/
/- Registry and repository lemmas                                      -/
/- ------------------------------------------------------------------ -/

theorem getProvider_setProvider_same (l : Registry) (k : String) (p : Provider) :
    getProvider (setProvider l k p) k = some p := by
  induction l with
  | nil => simp [setProvider, getProvider]
  | cons hd tl ih =>
      rcases hd with ⟨k', p'⟩
      by_cases h : k' = k
      · simp [setProvider, getProvider, h]
      · simp [setProvider, getProvider, h, ih]

theorem getProvider_setProvider_ne (l : Registry) (k k2 : String) (p : Provider)
    (h : k2 ≠ k) : getProvider (setProvider l k p) k2 = getProvider l k2 := by
  induction l with
  | nil => simp [setProvider, getProvider, h.symm]
  | cons hd tl ih =>
      rcases hd with ⟨k', p'⟩
      by_cases hk : k' = k
      · subst hk
        simp [setProvider, getProvider, h.symm]
      · simp only [setProvider, if_neg hk, getProvider]
        by_cases hk2 : k' = k2
        · simp [hk2]
        · simp [hk2, ih]

theorem repoGet_repoSet_same (l : Repo) (n : String) (c : Context) :
    repoGet (repoSet l n c) n = some c := by
  induction l with
  | nil => simp [repoSet, repoGet]
  | cons hd tl ih =>
      rcases hd with ⟨n', c'⟩
      by_cases h : n' = n
      · simp [repoSet, repoGet, h]
      · simp [repoSet, repoGet, h, ih]

theorem repoGet_repoSet_ne (l : Repo) (n m : String) (c : Context)
    (h : m ≠ n) : repoGet (repoSet l n c) m = repoGet l m := by
  induction l with
  | nil => simp [repoSet, repoGet, h.symm]
  | cons hd tl ih =>
      rcases hd with ⟨n', c'⟩
      by_cases hk : n' = n
      · subst hk
        simp [repoSet, repoGet, h.symm]
      · simp only [repoSet, if_neg hk, repoGet]
        by_cases hk2 : n' = m
        · simp [hk2]
        · simp [hk2, ih]

/-- First resolution of a fresh factory provider: the factory runs once,
its outcome is returned and written back into the registry entry. -/
theorem resolveFuel_factory_fresh (fuel : Nat) (ctx : Context) (k : String)
    (f : FactoryOutcome) (h : getProvider ctx.providers k = some (Provider.new.withFn f)) :
    resolveFuel (fuel + 1) ctx k = (runFactory f, memoCtx ctx k f) := by
  simp [resolveFuel, h, providerGet, Provider.new, Provider.withFn, memoCtx, memoProvider]

/-- Any resolution of an already-memoized factory provider returns the
cached outcome and leaves the state unchanged. -/
theorem resolveFuel_factory_memoized (g : Nat) (ctx : Context) (k : String)
    (f : FactoryOutcome) (h : getProvider ctx.providers k = some (memoProvider f)) :
    resolveFuel (g + 1) ctx k = (runFactory f, ctx) := by
  simp [resolveFuel, h, providerGet, memoProvider]

/-- A successful `resolveKeysThenFilter` result contains only truthy
values: its final step is the truthiness filter. -/
theorem resolveKeysThenFilter_ok_truthy (fuel : Nat) (keys : List String)
    (ctx ctx1 : Context) (vs : List JSVal)
    (h : resolveKeysThenFilter fuel keys ctx = (.ok vs, ctx1)) :
    ∀ v ∈ vs, v.truthy = true := by
  unfold resolveKeysThenFilter at h
  split at h
  · simp only [Prod.mk.injEq, Except.ok.injEq] at h
    obtain ⟨h1, _⟩ := h
    subst h1
    intro v hv
    exact (List.mem_filter.1 hv).2
  · simp at h

/-- A successful `resolveAll` result contains only truthy values: every
value-producing branch ends in the truthiness filter. -/
theorem resolveAllFuel_ok_truthy (fuel : Nat) (cond : Cond) (ctx ctx1 : Context)
    (vs : List JSVal) (h : resolveAllFuel fuel cond ctx = (.ok vs, ctx1)) :
    ∀ v ∈ vs, v.truthy = true := by
  cases fuel with
  | zero => simp [resolveAllFuel] at h
  | succ fuel =>
      cases cond with
      | arr cs =>
          simp only [resolveAllFuel] at h
          split at h
          · simp only [Prod.mk.injEq, Except.ok.injEq] at h
            obtain ⟨h1, _⟩ := h
            subst h1
            intro v hv
            exact (List.mem_filter.1 hv).2
          · simp at h
      | regex t => exact resolveKeysThenFilter_ok_truthy _ _ _ _ _ h
      | pred t => exact resolveKeysThenFilter_ok_truthy _ _ _ _ _ h
      | undef => exact resolveKeysThenFilter_ok_truthy _ _ _ _ _ h
      | tru => exact resolveKeysThenFilter_ok_truthy _ _ _ _ _ h
      | nul =>
          simp only [resolveAllFuel, Prod.mk.injEq, Except.ok.injEq] at h
          obtain ⟨h1, _⟩ := h
          subst h1
          intro v hv
          simp at hv
      | fls =>
          simp only [resolveAllFuel, Prod.mk.injEq, Except.ok.injEq] at h
          obtain ⟨h1, _⟩ := h
          subst h1
          intro v hv
          simp at hv
      | key k =>
          simp only [resolveAllFuel] at h
          split at h
          · simp only [Prod.mk.injEq, Except.ok.injEq] at h
            obtain ⟨h1, _⟩ := h
            subst h1
            intro v hv
            exact (List.mem_filter.1 hv).2
          · simp at h

/-- A successful fold over sub-conditions (the array branch's map/reduce)
yields only truthy values, each sub-result being already filtered. -/
theorem resolveAllSeq_ok_truthy (fuel : Nat) (cs : List Cond) (ctx ctx1 : Context)
    (vs : List JSVal)
    (h : resolveAllSeq (resolveAllFuel fuel) cs ctx = (.ok vs, ctx1)) :
    ∀ v ∈ vs, v.truthy = true := by
  induction cs generalizing ctx vs ctx1 with
  | nil =>
      simp only [resolveAllSeq, Prod.mk.injEq, Except.ok.injEq] at h
      obtain ⟨h1, _⟩ := h
      subst h1
      intro v hv
      simp at hv
  | cons c cs ih =>
      simp only [resolveAllSeq] at h
      split at h
      · rename_i v1 ctxm heq1
        split at h
        · rename_i vs2 ctxn heq2
          simp only [Prod.mk.injEq, Except.ok.injEq] at h
          obtain ⟨h1, _⟩ := h
          subst h1
          intro v hv
          rcases List.mem_append.1 hv with hv1 | hv2
          · exact resolveAllFuel_ok_truthy fuel c ctx ctxm v1 heq1 v hv1
          · exact ih ctxm ctxn vs2 heq2 v hv2
        · simp at h
      · simp at h

/-- The prefix keys resolve, then key `k` rejects: the whole sequential
key resolution rejects with that error — no partial list survives. -/
theorem resolveMany_split_error (fuel : Nat) (ks1 : List String) (k : String)
    (ks2 : List String) (ctx ctx1 ctx2 : Context) (vs : List JSVal)
    (e : DependencyError)
    (h1 : resolveMany fuel ks1 ctx = (.ok vs, ctx1))
    (h2 : resolveFuel fuel ctx1 k = (.error e, ctx2)) :
    resolveMany fuel (ks1 ++ k :: ks2) ctx = (.error e, ctx2) := by
  induction ks1 generalizing ctx vs with
  | nil =>
      simp only [resolveMany, Prod.mk.injEq, Except.ok.injEq] at h1
      obtain ⟨_, hctx⟩ := h1
      subst hctx
      simp [resolveMany, h2]
  | cons a ks ih =>
      simp only [resolveMany] at h1
      split at h1
      · rename_i v ctxm heqa
        split at h1
        · rename_i ws ctxn heqr
          simp only [Prod.mk.injEq, Except.ok.injEq] at h1
          obtain ⟨_, hctx⟩ := h1
          subst hctx
          have ihr := ih ctxm ws heqr
          simp [resolveMany, heqa, ihr]
        · simp at h1
      · simp at h1

/- ------------------------------------------------------------------ -/
/- Claim theorems                                                      -/
/- ------------------------------------------------------------------ -/

/-- C2: `resolve(k)` with no registered provider yields a failed
asynchronous result — a value, never a synchronous throw — whose error
carries the offending key `k` in its message; for a registered key holding
a literal (possibly eventual) value, `resolve` yields that value
asynchronously unwrapped, with the registry untouched. -/
theorem c2_resolve_missing_vs_registered (fuel : Nat) (ctx : Context) (k : String) :
    (getProvider ctx.providers k = none →
      resolveFuel (fuel + 1) ctx k =
        (.error ⟨"Cannot find provider for: " ++ k⟩, ctx)) ∧
    (∀ v, getProvider ctx.providers k = some (Provider.new.as v) →
      resolveFuel (fuel + 1) ctx k = (unwrapValue v, ctx)) := by
  constructor
  · intro h
    simp [resolveFuel, h]
  · intro v h
    simp [resolveFuel, h, providerGet, Provider.new, Provider.as]

/-- C2 witness: `resolve('missing')` on the fixture rejects with an error
carrying `'missing'`, and resolving the promise-literal fixture key
yields the unwrapped value. -/
theorem c2_resolve_missing_vs_registered_witness :
    resolveFuel 1 exCtxVal "missing" =
      (.error ⟨"Cannot find provider for: " ++ "missing"⟩, exCtxVal) ∧
    resolveFuel 1 exCtxPromise "p" = (.ok (.str "v"), exCtxPromise) :=
  ⟨(c2_resolve_missing_vs_registered 0 exCtxVal "missing").1 (by rfl),
   (c2_resolve_missing_vs_registered 0 exCtxPromise "p").2
     (.promise (.ok (.str "v"))) (by rfl)⟩

/-- C3: after `provide(k).with(factory)`, the first `resolve(k)` invokes
the factory exactly once (the invocation tally of the stored provider
becomes 1) and caches the outcome; every subsequent `resolve(k)` — for any
number of calls — returns the cached outcome and leaves the provider state
(tally included) unchanged, so the factory is never invoked again. -/
theorem c3_factory_invoked_once (fuel : Nat) (ctx : Context) (k : String)
    (f : FactoryOutcome) (h : getProvider ctx.providers k = some (Provider.new.withFn f)) :
    resolveFuel (fuel + 1) ctx k = (runFactory f, memoCtx ctx k f) ∧
    getProvider (memoCtx ctx k f).providers k = some (memoProvider f) ∧
    (memoProvider f).invocationTally = 1 ∧
    (∀ g, resolveFuel (g + 1) (memoCtx ctx k f) k = (runFactory f, memoCtx ctx k f)) := by
  refine ⟨resolveFuel_factory_fresh fuel ctx k f h, ?_, rfl, ?_⟩
  · simp [memoCtx, getProvider_setProvider_same]
  · intro g
    exact resolveFuel_factory_memoized g (memoCtx ctx k f) k f
      (by simp [memoCtx, getProvider_setProvider_same])

/-- C3 witness: the memoization test scenario — a factory returning
`undefined` at key `'k'` is invoked once by the first resolve and the
second resolve returns the cached result on unchanged state. -/
theorem c3_factory_invoked_once_witness :
    resolveFuel 1 (emptyCtx.provideWith "k" (.returns (.imm .undef))) "k" =
      (runFactory (.returns (.imm .undef)),
        memoCtx (emptyCtx.provideWith "k" (.returns (.imm .undef))) "k" (.returns (.imm .undef))) ∧
    (memoProvider (.returns (.imm .undef))).invocationTally = 1 ∧
    resolveFuel 1 (memoCtx (emptyCtx.provideWith "k" (.returns (.imm .undef))) "k"
        (.returns (.imm .undef))) "k" =
      (runFactory (.returns (.imm .undef)),
        memoCtx (emptyCtx.provideWith "k" (.returns (.imm .undef))) "k" (.returns (.imm .undef))) :=
  ⟨(c3_factory_invoked_once 0 (emptyCtx.provideWith "k" (.returns (.imm .undef))) "k"
      (.returns (.imm .undef)) (by rfl)).1,
   (c3_factory_invoked_once 0 (emptyCtx.provideWith "k" (.returns (.imm .undef))) "k"
      (.returns (.imm .undef)) (by rfl)).2.2.1,
   (c3_factory_invoked_once 0 (emptyCtx.provideWith "k" (.returns (.imm .undef))) "k"
      (.returns (.imm .undef)) (by rfl)).2.2.2 0⟩

/-- C4: resolution never raises synchronously — `resolveFuel` is total,
always delivering some asynchronous result value — and in particular a
factory that raises synchronously during production surfaces as a failed
asynchronous result carrying the raised message. -/
theorem c4_failures_are_async (fuel : Nat) (ctx : Context) (k : String) :
    (∃ r ctx1, resolveFuel fuel ctx k = (r, ctx1)) ∧
    (∀ m, getProvider ctx.providers k = some (Provider.new.withFn (.throws m)) →
      resolveFuel (fuel + 1) ctx k = (.error ⟨m⟩, memoCtx ctx k (.throws m))) := by
  constructor
  · exact ⟨_, _, rfl⟩
  · intro m h
    exact resolveFuel_factory_fresh fuel ctx k (.throws m) h

/-- C4 witness: a factory raising `'boom'` at key `'kt'` yields a rejected
result carrying `'boom'`. -/
theorem c4_failures_are_async_witness :
    resolveFuel 1 (emptyCtx.provideWith "kt" (.throws "boom")) "kt" =
      (.error ⟨"boom"⟩, memoCtx (emptyCtx.provideWith "kt" (.throws "boom")) "kt" (.throws "boom")) :=
  (c4_failures_are_async 0 (emptyCtx.provideWith "kt" (.throws "boom")) "kt").2 "boom" (by rfl)

/-- C5: a Provider created by `provide(k)` but never configured through
`as`/`with`/`aliasTo` resolves to a failed asynchronous result — a
`DependencyError`, the same observable shape as ProviderNotFound — and
never an `ok` value. -/
theorem c5_unconfigured_provider_fails (fuel : Nat) (ctx : Context) (k : String) :
    resolveFuel (fuel + 1) (ctx.provide k).2 k =
      (.error ⟨"Provider is not configured"⟩, (ctx.provide k).2) := by
  simp [Context.provide, resolveFuel, getProvider_setProvider_same, providerGet, Provider.new]

/-- C6: a second `provide(k)` replaces the Provider registered at `k` with
the newly created (unconfigured) one, leaves the registry entry at every
other key unchanged, and has no side effect beyond the registry: the
context's name is untouched and the returned Provider is the fresh one. -/
theorem c6_provide_replaces (ctx : Context) (k : String) :
    getProvider (ctx.provide k).2.providers k = some Provider.new ∧
    (∀ k2, k2 ≠ k → getProvider (ctx.provide k).2.providers k2 = getProvider ctx.providers k2) ∧
    (ctx.provide k).2.name = ctx.name ∧
    (ctx.provide k).1 = Provider.new := by
  refine ⟨?_, ?_, rfl, rfl⟩
  · simp [Context.provide, getProvider_setProvider_same]
  · intro k2 h
    simp [Context.provide, getProvider_setProvider_ne _ _ _ _ h]

/-- C6 witness: re-registering `"a"` on the fixture context replaces the
literal-`0` provider with a fresh unconfigured one and leaves the
(absent) entry at `"b"` and the name unchanged. -/
theorem c6_provide_replaces_witness :
    getProvider (exCtxZero.provide "a").2.providers "a" = some Provider.new ∧
    getProvider (exCtxZero.provide "a").2.providers "b" = getProvider exCtxZero.providers "b" ∧
    (exCtxZero.provide "a").2.name = exCtxZero.name :=
  ⟨(c6_provide_replaces exCtxZero "a").1,
   (c6_provide_replaces exCtxZero "a").2.1 "b" (by decide),
   (c6_provide_replaces exCtxZero "a").2.2.1⟩

/-- C10: constructing a Context with a non-empty name stores the instance
in the process-wide directory under that name, overwriting any prior
entry (so `Context.get` returns the most recently constructed context of
that name) and leaving every other name's entry unchanged; constructing
with an absent/empty name leaves the directory unchanged. -/
theorem c10_named_context_repo (repo : Repo) (n : String) :
    (n ≠ "" →
      repoGet (constructContext repo n).2 n = some (constructContext repo n).1 ∧
      ∀ m, m ≠ n → repoGet (constructContext repo n).2 m = repoGet repo m) ∧
    (constructContext repo "").2 = repo := by
  constructor
  · intro hn
    constructor
    · simp [constructContext, hn, repoGet_repoSet_same]
    · intro m hm
      simp [constructContext, hn, repoGet_repoSet_ne _ _ _ _ hm]
  · simp [constructContext]

/-- C10 witness: the name `"n"` is stored (overwriting a prior context of
the same name), `"m"` is untouched, and the empty name stores nothing. -/
theorem c10_named_context_repo_witness :
    repoGet (constructContext [("n", emptyCtx)] "n").2 "n" =
      some (constructContext [("n", emptyCtx)] "n").1 ∧
    repoGet (constructContext [("n", emptyCtx)] "n").2 "m" =
      repoGet [("n", emptyCtx)] "m" ∧
    (constructContext [("n", emptyCtx)] "").2 = [("n", emptyCtx)] :=
  ⟨((c10_named_context_repo [("n", emptyCtx)] "n").1 (by decide)).1,
   ((c10_named_context_repo [("n", emptyCtx)] "n").1 (by decide)).2 "m" (by decide),
   (c10_named_context_repo [("n", emptyCtx)] "n").2⟩

/-- C1: at every recursion level, `resolveAll` drops entries whose
resolved value is falsy — every successful result list contains only
truthy values — and in particular, after `provide('a').as(0)` on an
otherwise empty context, `resolveAll()` with no condition yields the
empty list. -/
theorem c1_falsy_entries_dropped :
    (∀ fuel cond ctx ctx1 vs,
      resolveAllFuel fuel cond ctx = (.ok vs, ctx1) → ∀ v ∈ vs, v.truthy = true) ∧
    (∀ fuel, resolveAllFuel (fuel + 1) Cond.undef exCtxZero = (.ok [], exCtxZero)) := by
  constructor
  · exact fun fuel cond ctx ctx1 vs h => resolveAllFuel_ok_truthy fuel cond ctx ctx1 vs h
  · intro fuel
    simp [resolveAllFuel, resolveKeysThenFilter, resolveMany, resolveFuel, exCtxZero,
      emptyCtx, Context.provideAs, Provider.new, Provider.as, setProvider, getProvider,
      registryKeys, providerGet, unwrapValue, JSVal.truthy]

/-- C1 witness: the fixture result `[]` is all-truthy (vacuously), and the
`provide('a').as(0)` fixture resolves with no condition to `[]`. -/
theorem c1_falsy_entries_dropped_witness :
    (∀ v ∈ ([] : List JSVal), v.truthy = true) ∧
    resolveAllFuel 1 Cond.undef exCtxZero = (.ok [], exCtxZero) :=
  ⟨c1_falsy_entries_dropped.1 1 Cond.undef exCtxZero exCtxZero [] (by rfl),
   c1_falsy_entries_dropped.2 0⟩

/-- C7: `resolveAll([k])` yields exactly the result of `resolveAll(k)`;
more generally the array branch resolves each sub-condition recursively
and, when every sub-condition succeeds, the result is their concatenation
in sub-condition order (the fold's step appends each sub-result to the
right of the accumulated ones). -/
theorem c7_array_is_concatenation :
    (∀ fuel k ctx, resolveAllFuel (fuel + 1) (Cond.arr [Cond.key k]) ctx =
      resolveAllFuel fuel (Cond.key k) ctx) ∧
    (∀ fuel cs ctx vs ctx1,
      resolveAllSeq (resolveAllFuel fuel) cs ctx = (.ok vs, ctx1) →
      resolveAllFuel (fuel + 1) (Cond.arr cs) ctx = (.ok vs, ctx1)) ∧
    (∀ fuel c cs ctx vs1 ctx1 vs2 ctx2,
      resolveAllFuel fuel c ctx = (.ok vs1, ctx1) →
      resolveAllSeq (resolveAllFuel fuel) cs ctx1 = (.ok vs2, ctx2) →
      resolveAllSeq (resolveAllFuel fuel) (c :: cs) ctx = (.ok (vs1 ++ vs2), ctx2)) := by
  refine ⟨?_, ?_, ?_⟩
  · intro fuel k ctx
    cases hr : resolveAllFuel fuel (Cond.key k) ctx with
    | mk r c1 =>
        cases r with
        | ok ws =>
            have ht := resolveAllFuel_ok_truthy fuel (Cond.key k) ctx c1 ws hr
            simp [resolveAllFuel, resolveAllSeq, hr, List.filter_eq_self.mpr ht]
        | error e => simp [resolveAllFuel, resolveAllSeq, hr]
  · intro fuel cs ctx vs ctx1 h
    have ht := resolveAllSeq_ok_truthy fuel cs ctx ctx1 vs h
    simp [resolveAllFuel, h, List.filter_eq_self.mpr ht]
  · intro fuel c cs ctx vs1 ctx1 vs2 ctx2 h1 h2
    simp [resolveAllSeq, h1, h2]

/-- C7 witness: on the fixture, `resolveAll(['test-key'])` equals
`resolveAll('test-key')`, the array branch returns the folded result, and
the fold of a one-key array concatenates its single sub-result. -/
theorem c7_array_is_concatenation_witness :
    resolveAllFuel 2 (Cond.arr [Cond.key "test-key"]) exCtxVal =
      resolveAllFuel 1 (Cond.key "test-key") exCtxVal ∧
    resolveAllFuel 2 (Cond.arr [Cond.key "test-key"]) exCtxVal =
      (.ok [JSVal.str "test-value"], exCtxVal) ∧
    resolveAllSeq (resolveAllFuel 1) [Cond.key "test-key"] exCtxVal =
      (.ok ([JSVal.str "test-value"] ++ []), exCtxVal) :=
  ⟨c7_array_is_concatenation.1 1 "test-key" exCtxVal,
   c7_array_is_concatenation.2.1 1 [Cond.key "test-key"] exCtxVal
     [JSVal.str "test-value"] exCtxVal (by rfl),
   c7_array_is_concatenation.2.2 1 (Cond.key "test-key") [] exCtxVal
     [JSVal.str "test-value"] exCtxVal [] exCtxVal (by rfl) (by rfl)⟩

/-- C8: each call of the function returned by `using(cond, consumer)`
runs `resolveAll(cond)` on the state current at that call; on success it
invokes the consumer with the resolved values as leading arguments
followed by the call's own arguments, in that order, and on failure it
propagates the rejection without invoking the consumer. -/
theorem c8_using_injects_resolved (fuel : Nat) (cond : Cond)
    (consumer : List JSVal → JSVal) (args : List JSVal) (ctx : Context) :
    (∀ vs ctx1, resolveAllFuel fuel cond ctx = (.ok vs, ctx1) →
      usingApply fuel cond consumer args ctx = (.ok (consumer (vs ++ args)), ctx1)) ∧
    (∀ e ctx1, resolveAllFuel fuel cond ctx = (.error e, ctx1) →
      usingApply fuel cond consumer args ctx = (.error e, ctx1)) := by
  constructor
  · intro vs ctx1 h
    simp [usingApply, h]
  · intro e ctx1 h
    simp [usingApply, h]

/-- C8 witness: on the fixture, wrapping a consumer that counts its
arguments and calling it with one own argument passes the one resolved
value followed by that argument. -/
theorem c8_using_injects_resolved_witness :
    usingApply 1 Cond.tru (fun l => .num l.length) [JSVal.num 5] exCtxVal =
      (.ok (.num 2), exCtxVal) :=
  (c8_using_injects_resolved 1 Cond.tru (fun l => .num l.length)
    [JSVal.num 5] exCtxVal).1 [JSVal.str "test-value"] exCtxVal (by rfl)

/-- C9: failure of any one selected key rejects the whole `resolveAll`
with that failure and no partial list: an unregistered literal key rejects
carrying the key; in a predicate selection, once the keys before `k` have
resolved and `k` rejects, the whole call rejects; and in an array, a
rejecting sub-condition rejects the whole. -/
theorem c9_one_failure_rejects_all :
    (∀ fuel ctx k, getProvider ctx.providers k = none →
      resolveAllFuel (fuel + 1) (Cond.key k) ctx =
        (.error ⟨"Cannot find provider for: " ++ k⟩, ctx)) ∧
    (∀ fuel t ctx ks1 k ks2 vs e ctx1 ctx2,
      (registryKeys ctx.providers).filter t = ks1 ++ k :: ks2 →
      resolveMany (fuel + 1) ks1 ctx = (.ok vs, ctx1) →
      resolveFuel (fuel + 1) ctx1 k = (.error e, ctx2) →
      resolveAllFuel (fuel + 1) (Cond.pred t) ctx = (.error e, ctx2)) ∧
    (∀ fuel c cs ctx e ctx1,
      resolveAllFuel fuel c ctx = (.error e, ctx1) →
      resolveAllFuel (fuel + 1) (Cond.arr (c :: cs)) ctx = (.error e, ctx1)) := by
  refine ⟨?_, ?_, ?_⟩
  · intro fuel ctx k h
    simp [resolveAllFuel, resolveFuel, h]
  · intro fuel t ctx ks1 k ks2 vs e ctx1 ctx2 hsplit h1 h2
    have hm := resolveMany_split_error (fuel + 1) ks1 k ks2 ctx ctx1 ctx2 vs e h1 h2
    simp [resolveAllFuel, resolveKeysThenFilter, hsplit, hm]
  · intro fuel c cs ctx e ctx1 h
    simp [resolveAllFuel, resolveAllSeq, h]

/-- C9 witness: `resolveAll('missing')` on the fixture rejects carrying
`'missing'`; with an unconfigured key `'u'` added, an all-true predicate
selection rejects as a whole after `'test-key'` resolves; and the array
`[missing]` rejects as a whole. -/
theorem c9_one_failure_rejects_all_witness :
    resolveAllFuel 1 (Cond.key "missing") exCtxVal =
      (.error ⟨"Cannot find provider for: " ++ "missing"⟩, exCtxVal) ∧
    resolveAllFuel 1 (Cond.pred (fun _ => true)) (exCtxVal.provide "u").2 =
      (.error ⟨"Provider is not configured"⟩, (exCtxVal.provide "u").2) ∧
    resolveAllFuel 2 (Cond.arr [Cond.key "missing"]) exCtxVal =
      (.error ⟨"Cannot find provider for: " ++ "missing"⟩, exCtxVal) :=
  ⟨c9_one_failure_rejects_all.1 0 exCtxVal "missing" (by rfl),
   c9_one_failure_rejects_all.2.1 0 (fun _ => true) (exCtxVal.provide "u").2
     ["test-key"] "u" [] [JSVal.str "test-value"] ⟨"Provider is not configured"⟩
     (exCtxVal.provide "u").2 (exCtxVal.provide "u").2 (by rfl) (by rfl) (by rfl),
   c9_one_failure_rejects_all.2.2 1 (Cond.key "missing") [] exCtxVal
     ⟨"Cannot find provider for: " ++ "missing"⟩ exCtxVal
     (c9_one_failure_rejects_all.1 0 exCtxVal "missing" (by rfl))⟩

end AutoProvision
